import Mathlib

/-!
# Verification of the OpenTelemetry collector in-memory trace data model

Shallow embedding of:
* `src/consumer/pdata/trace.go` — the `Traces` envelope, `SpanCount`, `Clone`,
  `TracesFromOtlpProtoBytes` / `ToOtlpProtoBytes`, and `SpanStatus.SetCode`;
* `src/receiver/otlpreceiver/trace/otlp.go` — `Receiver.Export` with its
  span-status backward-compatibility rewrite and `Receiver.sendToNextConsumer`;
* `src/testbed/testbed/data_providers.go` — `PerfTestDataProvider.GenerateMetrics`
  and the atomic batch / data-item sequence counters.

Go slices of the underlying protobuf messages can be nil or empty; both are
modelled by `Option (List _)` (`none` = nil slice, `some []` = empty non-nil
slice).  Byte strings and string fields are modelled as `List Nat`; enum values
(which are int32 constants, all non-negative) as `Nat`.
-/

namespace Otlp

/-- `Status_StatusCode` value `STATUS_CODE_UNSET` (OTLP trace proto). -/
def statusCodeUnset : Nat := 0

/-- `Status_StatusCode` value `STATUS_CODE_OK` (OTLP trace proto). -/
def statusCodeOk : Nat := 1

/-- `Status_StatusCode` value `STATUS_CODE_ERROR` (OTLP trace proto). -/
def statusCodeError : Nat := 2

/-- `Status_DeprecatedStatusCode` value `DEPRECATED_STATUS_CODE_OK`. -/
def deprecatedStatusCodeOk : Nat := 0

/-- `Status_DeprecatedStatusCode` value `DEPRECATED_STATUS_CODE_UNKNOWN_ERROR`. -/
def deprecatedStatusCodeUnknownError : Nat := 2

/-- `otlptrace.Status`: the span status message, carrying the current code,
the deprecated code kept for backward compatibility, and a message string. -/
structure Status where
  code : Nat
  deprecatedCode : Nat
  message : List Nat
  deriving Repr, DecidableEq

/-- A key/value attribute (`common.v1.KeyValue`), keys and values as byte strings. -/
structure AttributeKeyValue where
  key : List Nat
  value : List Nat
  deriving Repr, DecidableEq

/-- `otlptrace.Span`: the fields enumerated in the external-interface section
of the design (trace/span ids, name, kind, start/end time, attributes, status). -/
structure Span where
  traceId : List Nat
  spanId : List Nat
  name : List Nat
  kind : Nat
  startTimeUnixNano : Nat
  endTimeUnixNano : Nat
  attributes : Option (List AttributeKeyValue)
  status : Status
  deriving Repr, DecidableEq

/-- `otlptrace.InstrumentationLibrarySpans`: a group of spans from one library. -/
structure InstrumentationLibrarySpans where
  spans : Option (List Span)
  deriving Repr, DecidableEq

/-- `otlptrace.ResourceSpans`: resource attributes plus the per-library groups. -/
structure ResourceSpans where
  resource : Option (List AttributeKeyValue)
  instrumentationLibrarySpans : Option (List InstrumentationLibrarySpans)
  deriving Repr, DecidableEq

/-- `otlpcollectortrace.ExportTraceServiceRequest`: the top-level traces envelope. -/
structure ExportTraceServiceRequest where
  resourceSpans : Option (List ResourceSpans)
  deriving Repr, DecidableEq

instance : Inhabited ExportTraceServiceRequest := ⟨⟨none⟩⟩

/-- Reading a Go slice: a nil slice (`none`) iterates like an empty one. -/
def optList {α : Type} : Option (List α) → List α
  | none => []
  | some xs => xs

end Otlp

namespace Pdata

open Otlp

/-- `SpanStatus.SetCode` (src/consumer/pdata/trace.go, lines 131-142): replaces
the code and, per the OTLP compatibility rule for new senders, also overwrites
the deprecated code (`Unset`/`Ok` map to `OK`, `Error` to `UNKNOWN_ERROR`;
any other int32 value falls through the switch leaving the deprecated code). -/
def SpanStatus.SetCode (ms : Status) (v : Nat) : Status :=
  let ms1 : Status := { ms with code := v }
  if v = statusCodeUnset ∨ v = statusCodeOk then
    { ms1 with deprecatedCode := deprecatedStatusCodeOk }
  else if v = statusCodeError then
    { ms1 with deprecatedCode := deprecatedStatusCodeUnknownError }
  else
    ms1

/-- `Traces.SpanCount` (src/consumer/pdata/trace.go, lines 75-86): the nested
loop accumulating the length of every `Spans` slice. -/
def Traces.SpanCount (td : ExportTraceServiceRequest) : Nat :=
  (optList td.resourceSpans).foldl
    (fun acc rs =>
      (optList rs.instrumentationLibrarySpans).foldl
        (fun acc2 ils => acc2 + (optList ils.spans).length) acc)
    0

/-- The span count written as a sum over a full traversal, as the design
document states it (sum over every resource-spans and library group of the
length of its spans sequence). -/
def Traces.spanCountSpec (td : ExportTraceServiceRequest) : Nat :=
  ((optList td.resourceSpans).map
    (fun rs =>
      ((optList rs.instrumentationLibrarySpans).map
        (fun ils => (optList ils.spans).length)).sum)).sum

end Pdata

namespace Receiver

open Otlp

/-- The per-status body of the backward-compatibility switch in
`Receiver.Export` (src/receiver/otlpreceiver/trace/otlp.go, lines 65-75):
a span with code `UNSET` and a deprecated code other than `OK` becomes
`ERROR`; a span with code `OK` or `ERROR` gets its deprecated code
overwritten to the matching deprecated value. -/
def fixStatus (s : Status) : Status :=
  if s.code = statusCodeUnset then
    if s.deprecatedCode ≠ deprecatedStatusCodeOk then
      { s with code := statusCodeError }
    else s
  else if s.code = statusCodeOk then
    { s with deprecatedCode := deprecatedStatusCodeOk }
  else if s.code = statusCodeError then
    { s with deprecatedCode := deprecatedStatusCodeUnknownError }
  else s

/-- One span after the ingress status rewrite. -/
def fixSpan (sp : Span) : Span := { sp with status := fixStatus sp.status }

/-- One instrumentation-library group after the ingress status rewrite. -/
def fixIls (ils : InstrumentationLibrarySpans) : InstrumentationLibrarySpans :=
  { ils with spans := ils.spans.map (List.map fixSpan) }

/-- One resource-spans entry after the ingress status rewrite. -/
def fixRs (rs : ResourceSpans) : ResourceSpans :=
  { rs with instrumentationLibrarySpans :=
      rs.instrumentationLibrarySpans.map (List.map fixIls) }

/-- The triple loop of `Receiver.Export` (otlp.go, lines 62-78) applied to the
whole request: every span's status goes through `fixStatus`. -/
def exportFix (req : ExportTraceServiceRequest) : ExportTraceServiceRequest :=
  { req with resourceSpans := req.resourceSpans.map (List.map fixRs) }

/-- All spans of a request, flattened in traversal order. -/
def allSpans (req : ExportTraceServiceRequest) : List Span :=
  (optList req.resourceSpans).flatMap
    (fun rs => (optList rs.instrumentationLibrarySpans).flatMap
      (fun ils => optList ils.spans))

end Receiver

namespace Wire

open Otlp

/-!
## Spec-modelled wire conversion

`ExportTraceServiceRequest.Marshal` / `.Unmarshal` are protobuf-generated code
that is not part of the reviewed sources; only their callers
(`Traces.ToOtlpProtoBytes`, `TracesFromOtlpProtoBytes`) are.  The codec below
is modelled from the spec: a canonical binary encoding of the traces envelope,
all-or-nothing decoding that fails with an error on malformed input, and a
sequence encoding that keeps the nil-slice / empty-slice distinction of the
in-memory tree.  Wire atoms are `Nat`.
-/

/-- Encode one scalar. -/
def encNat (n : Nat) : List Nat := [n]

/-- Encode a sequence: its length, then each element. -/
def encListWith {α : Type} (enc : α → List Nat) (xs : List α) : List Nat :=
  xs.length :: xs.foldr (fun x acc => enc x ++ acc) []

/-- Encode a possibly-absent sequence: a presence tag, then the sequence. -/
def encOptListWith {α : Type} (enc : α → List Nat) : Option (List α) → List Nat
  | none => [0]
  | some xs => 1 :: encListWith enc xs

/-- Encode a span status. -/
def encStatus (s : Status) : List Nat :=
  encNat s.code ++ encNat s.deprecatedCode ++ encListWith encNat s.message

/-- Encode one attribute. -/
def encKV (kv : AttributeKeyValue) : List Nat :=
  encListWith encNat kv.key ++ encListWith encNat kv.value

/-- Encode one span. -/
def encSpan (sp : Span) : List Nat :=
  encListWith encNat sp.traceId ++ encListWith encNat sp.spanId ++
  encListWith encNat sp.name ++ encNat sp.kind ++
  encNat sp.startTimeUnixNano ++ encNat sp.endTimeUnixNano ++
  encOptListWith encKV sp.attributes ++ encStatus sp.status

/-- Encode one instrumentation-library group. -/
def encIls (ils : InstrumentationLibrarySpans) : List Nat :=
  encOptListWith encSpan ils.spans

/-- Encode one resource-spans entry. -/
def encRs (rs : ResourceSpans) : List Nat :=
  encOptListWith encKV rs.resource ++
  encOptListWith encIls rs.instrumentationLibrarySpans

/-- Encode the whole traces envelope. -/
def encReq (req : ExportTraceServiceRequest) : List Nat :=
  encOptListWith encRs req.resourceSpans

/-- Decode one scalar; fails on truncated input. -/
def decNat : List Nat → Except String (Nat × List Nat)
  | [] => .error "truncated input"
  | n :: rest => .ok (n, rest)

/-- Decode exactly `n` elements with the given element decoder. -/
def decListWith {α : Type} (dec : List Nat → Except String (α × List Nat)) :
    Nat → List Nat → Except String (List α × List Nat)
  | 0, input => .ok ([], input)
  | n + 1, input => do
    let (x, r) ← dec input
    let (xs, r2) ← decListWith dec n r
    pure (x :: xs, r2)

/-- Decode a length-prefixed sequence. -/
def decSeqWith {α : Type} (dec : List Nat → Except String (α × List Nat))
    (input : List Nat) : Except String (List α × List Nat) := do
  let (n, r) ← decNat input
  decListWith dec n r

/-- Decode a presence-tagged, possibly-absent sequence; fails on an invalid tag. -/
def decOptListWith {α : Type} (dec : List Nat → Except String (α × List Nat))
    (input : List Nat) : Except String (Option (List α) × List Nat) := do
  let (tag, r) ← decNat input
  if tag = 0 then
    pure (none, r)
  else if tag = 1 then
    let (xs, r2) ← decSeqWith dec r
    pure (some xs, r2)
  else
    .error "invalid presence tag"

/-- Decode a span status. -/
def decStatus (input : List Nat) : Except String (Status × List Nat) := do
  let (code, r1) ← decNat input
  let (dep, r2) ← decNat r1
  let (msg, r3) ← decSeqWith decNat r2
  pure (⟨code, dep, msg⟩, r3)

/-- Decode one attribute. -/
def decKV (input : List Nat) : Except String (AttributeKeyValue × List Nat) := do
  let (k, r1) ← decSeqWith decNat input
  let (v, r2) ← decSeqWith decNat r1
  pure (⟨k, v⟩, r2)

/-- Decode one span. -/
def decSpan (input : List Nat) : Except String (Span × List Nat) := do
  let (tid, r1) ← decSeqWith decNat input
  let (sid, r2) ← decSeqWith decNat r1
  let (nm, r3) ← decSeqWith decNat r2
  let (kd, r4) ← decNat r3
  let (st, r5) ← decNat r4
  let (en, r6) ← decNat r5
  let (attrs, r7) ← decOptListWith decKV r6
  let (stat, r8) ← decStatus r7
  pure (⟨tid, sid, nm, kd, st, en, attrs, stat⟩, r8)

/-- Decode one instrumentation-library group. -/
def decIls (input : List Nat) :
    Except String (InstrumentationLibrarySpans × List Nat) := do
  let (sps, r) ← decOptListWith decSpan input
  pure (⟨sps⟩, r)

/-- Decode one resource-spans entry. -/
def decRs (input : List Nat) : Except String (ResourceSpans × List Nat) := do
  let (res, r1) ← decOptListWith decKV input
  let (ilss, r2) ← decOptListWith decIls r1
  pure (⟨res, ilss⟩, r2)

/-- Decode the whole traces envelope (`Unmarshal`): must consume every byte. -/
def decReq (input : List Nat) : Except String ExportTraceServiceRequest := do
  let (rss, r) ← decOptListWith decRs input
  match r with
  | [] => pure ⟨rss⟩
  | _ :: _ => .error "trailing bytes"

end Wire

namespace Pdata

open Otlp Wire

/-- The `Traces` value as Go sees it: `orig` is a pointer, nil in the invalid
zero value `Traces{}` (`none`) and otherwise the owned request (`some`). -/
abbrev TracesValue : Type := Option ExportTraceServiceRequest

/-- `Traces.ToOtlpProtoBytes` (src/consumer/pdata/trace.go, lines 63-65):
marshal the underlying request. -/
def Traces.ToOtlpProtoBytes (req : ExportTraceServiceRequest) : List Nat :=
  encReq req

/-- `TracesFromOtlpProtoBytes` (src/consumer/pdata/trace.go, lines 45-51):
unmarshal into a fresh request; on any unmarshal error return the invalid
zero-value `Traces{}` together with the error. -/
def TracesFromOtlpProtoBytes (data : List Nat) : TracesValue × Option String :=
  match decReq data with
  | .error e => (none, some e)
  | .ok req => (some req, none)

/-- A well-formed traces tree: every span carries a 16-byte trace id and an
8-byte span id, as the external-interface section prescribes. -/
def Traces.wellFormed (req : ExportTraceServiceRequest) : Prop :=
  ∀ sp ∈ Receiver.allSpans req, sp.traceId.length = 16 ∧ sp.spanId.length = 8

instance (req : ExportTraceServiceRequest) : Decidable (Traces.wellFormed req) := by
  unfold Traces.wellFormed
  infer_instance

/-!
## Clone and aliasing

A `Traces` handle aliases storage owned by a root tree; several handles may
alias one root, and `Clone` (src/consumer/pdata/trace.go, lines 68-72) makes a
fresh root (`NewTraces`) and deep-copies the resource-spans into it.  `CopyTo`
is generated code outside the reviewed sources; it is modelled from the spec as
a deep, never-aliasing, element-wise copy, which on pure tree values is the
value itself.  Root ownership is made explicit by a store of root trees: a
handle is an index into the store, mutation through a handle rewrites exactly
the root it indexes. -/

/-- The collection of live root trees; a `Traces` handle is an index into it. -/
abbrev TracesStore : Type := List ExportTraceServiceRequest

/-- `Traces.Clone`: allocate a fresh root holding a deep copy of root `i`;
the returned handle is the fresh root's index. -/
def Traces.Clone (store : TracesStore) (i : Nat) : TracesStore × Nat :=
  (store ++ [store.getD i default], store.length)

/-- Mutation through a handle: apply any tree transformation to the root the
handle indexes, leaving every other root untouched. -/
def Traces.mutate (store : TracesStore) (j : Nat)
    (f : ExportTraceServiceRequest → ExportTraceServiceRequest) : TracesStore :=
  store.set j (f (store.getD j default))

/-- What a handle observes: the current value of the root it indexes. -/
def Traces.observe (store : TracesStore) (i : Nat) : ExportTraceServiceRequest :=
  store.getD i default

end Pdata

namespace Receiver

open Otlp Pdata

/-- `Receiver.sendToNextConsumer` (otlp.go, lines 89-104): skip the next
consumer entirely when the batch holds no spans, otherwise invoke it.  The
next consumer is an oracle `consume`; the returned flag records whether it was
invoked. -/
def sendToNextConsumer (consume : ExportTraceServiceRequest → Option String)
    (td : ExportTraceServiceRequest) : Option String × Bool :=
  if Traces.SpanCount td = 0 then (none, false)
  else (consume td, true)

/-- `ExportTraceServiceResponse`: the empty success response message. -/
structure ExportTraceServiceResponse where
  deriving Repr, DecidableEq

/-- `Receiver.Export` (otlp.go, lines 54-87): run the status compatibility
rewrite, hand the batch to the next consumer, and return a fresh non-nil
response exactly when no error came back. -/
def Export (consume : ExportTraceServiceRequest → Option String)
    (req : ExportTraceServiceRequest) :
    (Option ExportTraceServiceResponse × Option String) × Bool :=
  let fixed := exportFix req
  let (err, called) := sendToNextConsumer consume fixed
  match err with
  | some e => ((none, some e), called)
  | none => ((some ⟨⟩, none), called)

end Receiver

namespace Testbed

open Otlp

/-!
## Performance-test data provider (src/testbed/testbed/data_providers.go)

Only the pieces of the metrics model that `PerfTestDataProvider.GenerateMetrics`
touches are needed: an int-gauge metric with int data points.  The other oneof
payload variants (double gauge, sums, histograms, summary) are never produced
by any function modelled here and are elided from the payload type. -/

/-- `LoadOptions`: batch size and extra attributes for generated data. -/
structure LoadOptions where
  itemsPerBatch : Nat
  attributes : List (String × String)

/-- One int data point of an int-gauge metric. -/
structure IntDataPoint where
  startTimeUnixNano : Nat
  value : Nat
  labels : List (String × String)
  deriving Repr, DecidableEq

/-- The metric's oneof data payload (only the variant generated here). -/
inductive MetricData where
  | noneData : MetricData
  | intGauge (dataPoints : List IntDataPoint) : MetricData
  deriving Repr, DecidableEq

/-- One metric record. -/
structure Metric where
  name : String
  description : String
  unit : String
  data : MetricData
  deriving Repr, DecidableEq

/-- One instrumentation-library metrics group. -/
structure InstrumentationLibraryMetrics where
  metrics : List Metric
  deriving Repr, DecidableEq

/-- One resource-metrics entry. -/
structure ResourceMetrics where
  resourceAttributes : List (String × String)
  instrumentationLibraryMetrics : List InstrumentationLibraryMetrics
  deriving Repr, DecidableEq

/-- The metrics envelope. -/
structure Metrics where
  resourceMetrics : List ResourceMetrics
  deriving Repr, DecidableEq

/-- The two shared load-generator sequence counters
(`batchesGenerated`, `dataItemsGenerated`), both `atomic.Uint64`. -/
structure Counters where
  batchesGenerated : Nat
  dataItemsGenerated : Nat
  deriving Repr, DecidableEq

/-- `GenerateMetrics` generates 7 data points per metric
(data_providers.go, line 127). -/
def dataPointsPerMetric : Nat := 7

/-- The inner loop of `GenerateMetrics` (lines 154-163): build data points
`j, j+1, ...`, each taking its value from an atomic increment of the
data-items counter; returns the points and the advanced counter. -/
def genDataPoints (now batchIndex : Nat) :
    Nat → Nat → Nat → List IntDataPoint × Nat
  | _, items, 0 => ([], items)
  | j, items, count + 1 =>
    let value := items + 1
    let p : IntDataPoint :=
      { startTimeUnixNano := now
        value := value
        labels := [("item_index", "item_" ++ toString j),
                   ("batch_index", "batch_" ++ toString batchIndex)] }
    let (ps, items2) := genDataPoints now batchIndex (j + 1) value count
    (p :: ps, items2)

/-- The outer loop of `GenerateMetrics` (lines 142-164): build metrics
`i, i+1, ...`; each iteration atomically increments the batches counter and
fills an int-gauge with `dataPointsPerMetric` points. -/
def genMetricsLoop (now : Nat) :
    Nat → Counters → Nat → List Metric × Counters
  | _, c, 0 => ([], c)
  | i, c, count + 1 =>
    let batchIndex := c.batchesGenerated + 1
    let (dps, items2) :=
      genDataPoints now batchIndex 0 c.dataItemsGenerated dataPointsPerMetric
    let m : Metric :=
      { name := "load_generator_" ++ toString i
        description := "Load Generator Counter #" ++ toString i
        unit := "1"
        data := .intGauge dps }
    let (ms, c2) :=
      genMetricsLoop now (i + 1) ⟨batchIndex, items2⟩ count
    (m :: ms, c2)

/-- `PerfTestDataProvider.GenerateMetrics` (data_providers.go, lines 124-166):
one resource-metrics entry, one instrumentation-library group, resource
attributes from the options when present, and `ItemsPerBatch` int-gauge
metrics of `dataPointsPerMetric` points each.  `now` stands for the wall
clock; the counters are threaded explicitly. -/
def GenerateMetrics (dp : LoadOptions) (c : Counters) (now : Nat) :
    Metrics × Counters × Bool :=
  let (ms, c2) := genMetricsLoop now 0 c dp.itemsPerBatch
  let rm : ResourceMetrics :=
    { resourceAttributes := dp.attributes
      instrumentationLibraryMetrics := [⟨ms⟩] }
  (⟨[rm]⟩, c2, false)

/-- Modelled from the spec: `Metrics.MetricAndDataPointCount` is not among the
reviewed sources; per the design it is the (metric, data-point) pair count
computed by full traversal of the nested sequences. -/
def MetricAndDataPointCount (md : Metrics) : Nat × Nat :=
  md.resourceMetrics.foldl
    (fun acc rm =>
      rm.instrumentationLibraryMetrics.foldl
        (fun acc2 ilm =>
          ilm.metrics.foldl
            (fun acc3 m =>
              (acc3.1 + 1,
               acc3.2 + match m.data with
                 | .noneData => 0
                 | .intGauge dps => dps.length))
            acc2)
        acc)
    (0, 0)

/-!
## Atomic sequence counters

The spec requires the shared batch / data-item sequence counters to be
advanced only by atomic increments.  An atomic increment is an indivisible
step, so a concurrent execution of the generators is, as far as a counter is
concerned, an arbitrary interleaving of indivisible increment steps.  An
interleaving is a list of producer identifiers; each step performs one
increment and logs the value the producer observed.  The counters are
`atomic.Uint64` values, so each increment wraps modulo `2 ^ 64`. -/

/-- The modulus of the wrapping `atomic.Uint64` counters: `2 ^ 64`. -/
def uint64Mod : Nat := 18446744073709551616

/-- Run an interleaving of atomic `Inc` steps against a shared uint64
counter starting at `c`: log of (producer, observed value) pairs plus the
final counter value; every increment wraps modulo `2 ^ 64`. -/
def runAtomicIncs (c : Nat) : List Nat → List (Nat × Nat) × Nat
  | [] => ([], c)
  | p :: ps =>
    let v := (c + 1) % uint64Mod
    let (log, final) := runAtomicIncs v ps
    ((p, v) :: log, final)

end Testbed

namespace Examples

open Otlp

/-- A well-formed span: 16-byte trace id, 8-byte span id. -/
def exampleSpan : Span :=
  { traceId := List.replicate 16 0
    spanId := List.replicate 8 0
    name := [108, 111, 97, 100]
    kind := 3
    startTimeUnixNano := 1
    endTimeUnixNano := 2
    attributes := none
    status := ⟨0, 0, []⟩ }

/-- An instrumentation-library group of 3 spans. -/
def exampleIls3 : InstrumentationLibrarySpans :=
  ⟨some [exampleSpan, exampleSpan, exampleSpan]⟩

/-- A resource-spans entry with 1 instrumentation-library group of 3 spans. -/
def exampleRs : ResourceSpans := ⟨none, some [exampleIls3]⟩

/-- The count-scenario tree: 2 resource-spans, each with 1 group of 3 spans. -/
def exampleTraces2x1x3 : ExportTraceServiceRequest :=
  ⟨some [exampleRs, exampleRs]⟩

/-- A well-formed tree mixing absent (`none`) and empty (`some []`)
sequences, to exercise the nil/empty distinction of the wire round trip. -/
def exampleMixedReq : ExportTraceServiceRequest :=
  ⟨some [⟨none, some [⟨some [exampleSpan]⟩, ⟨none⟩, ⟨some []⟩]⟩,
         ⟨some [], none⟩]⟩

end Examples

/-!
## Helper lemmas: wire codec round trip
-/

namespace Wire

open Otlp

theorem ok_bind {α β : Type} (a : α) (f : α → Except String β) :
    (Except.ok a >>= f) = f a := rfl

theorem pure_eq_ok {α : Type} (a : α) :
    (pure a : Except String α) = Except.ok a := rfl

theorem map_ok {α β : Type} (f : α → β) (a : α) :
    (f <$> (Except.ok a : Except String α)) = Except.ok (f a) := rfl

theorem decNat_enc (n : Nat) (rest : List Nat) :
    decNat (encNat n ++ rest) = .ok (n, rest) := rfl

theorem decListWith_enc {α : Type}
    (dec : List Nat → Except String (α × List Nat)) (enc : α → List Nat)
    (h : ∀ x rest, dec (enc x ++ rest) = .ok (x, rest)) :
    ∀ (xs : List α) (rest : List Nat),
      decListWith dec xs.length
        ((xs.foldr (fun x acc => enc x ++ acc) []) ++ rest) = .ok (xs, rest) := by
  intro xs
  induction xs with
  | nil => intro rest; simp [decListWith]
  | cons x xs ih =>
    intro rest
    simp only [List.foldr_cons, List.length_cons, List.append_assoc]
    simp [decListWith, h, ih, ok_bind, map_ok]

theorem decSeqWith_enc {α : Type}
    (dec : List Nat → Except String (α × List Nat)) (enc : α → List Nat)
    (h : ∀ x rest, dec (enc x ++ rest) = .ok (x, rest)) :
    ∀ (xs : List α) (rest : List Nat),
      decSeqWith dec (encListWith enc xs ++ rest) = .ok (xs, rest) := by
  intro xs rest
  simp [decSeqWith, encListWith, decNat, ok_bind, map_ok, decListWith_enc dec enc h]

theorem decOptListWith_enc {α : Type}
    (dec : List Nat → Except String (α × List Nat)) (enc : α → List Nat)
    (h : ∀ x rest, dec (enc x ++ rest) = .ok (x, rest)) :
    ∀ (o : Option (List α)) (rest : List Nat),
      decOptListWith dec (encOptListWith enc o ++ rest) = .ok (o, rest) := by
  intro o rest
  cases o with
  | none => simp [decOptListWith, encOptListWith, decNat, ok_bind, map_ok, pure_eq_ok]
  | some xs =>
    simp [decOptListWith, encOptListWith, decNat, ok_bind, map_ok,
      decSeqWith_enc dec enc h]

theorem decStatus_enc (s : Status) (rest : List Nat) :
    decStatus (encStatus s ++ rest) = .ok (s, rest) := by
  simp [decStatus, encStatus, encNat, decNat, ok_bind, map_ok, List.append_assoc,
    decSeqWith_enc decNat encNat decNat_enc]

theorem decKV_enc (kv : AttributeKeyValue) (rest : List Nat) :
    decKV (encKV kv ++ rest) = .ok (kv, rest) := by
  simp [decKV, encKV, ok_bind, map_ok, List.append_assoc,
    decSeqWith_enc decNat encNat decNat_enc]

theorem decSpan_enc (sp : Span) (rest : List Nat) :
    decSpan (encSpan sp ++ rest) = .ok (sp, rest) := by
  simp [decSpan, encSpan, encNat, decNat, ok_bind, map_ok, List.append_assoc,
    decSeqWith_enc decNat encNat decNat_enc,
    decOptListWith_enc decKV encKV decKV_enc, decStatus_enc]

theorem decIls_enc (ils : InstrumentationLibrarySpans) (rest : List Nat) :
    decIls (encIls ils ++ rest) = .ok (ils, rest) := by
  simp [decIls, encIls, ok_bind, map_ok,
    decOptListWith_enc decSpan encSpan decSpan_enc]

theorem decRs_enc (rs : ResourceSpans) (rest : List Nat) :
    decRs (encRs rs ++ rest) = .ok (rs, rest) := by
  simp [decRs, encRs, ok_bind, map_ok, List.append_assoc,
    decOptListWith_enc decKV encKV decKV_enc,
    decOptListWith_enc decIls encIls decIls_enc]

theorem decReq_enc (req : ExportTraceServiceRequest) :
    decReq (encReq req) = .ok req := by
  have h := decOptListWith_enc decRs encRs decRs_enc req.resourceSpans []
  simp only [List.append_nil] at h
  simp [decReq, encReq, ok_bind, map_ok, pure_eq_ok, h]

end Wire

/-!
## Helper lemmas: span counting and the ingress rewrite
-/

namespace Pdata

open Otlp

theorem foldl_add_map {α : Type} (f : α → Nat) :
    ∀ (l : List α) (acc : Nat),
      l.foldl (fun a x => a + f x) acc = acc + (l.map f).sum := by
  intro l
  induction l with
  | nil => intro acc; simp
  | cons x xs ih => intro acc; simp [ih]; omega

theorem spanCount_foldl (rss : List ResourceSpans) :
    ∀ acc : Nat,
      rss.foldl
        (fun acc rs =>
          (optList rs.instrumentationLibrarySpans).foldl
            (fun acc2 ils => acc2 + (optList ils.spans).length) acc)
        acc
      = acc + (rss.map (fun rs =>
          ((optList rs.instrumentationLibrarySpans).map
            (fun ils => (optList ils.spans).length)).sum)).sum := by
  induction rss with
  | nil => intro acc; simp
  | cons rs rss ih =>
    intro acc
    simp only [List.foldl_cons, List.map_cons, List.sum_cons]
    rw [foldl_add_map, ih]
    omega

theorem spanCount_eq_spec (td : ExportTraceServiceRequest) :
    Traces.SpanCount td = Traces.spanCountSpec td := by
  unfold Traces.SpanCount Traces.spanCountSpec
  rw [spanCount_foldl]
  simp

end Pdata

namespace Receiver

open Otlp Pdata

theorem optList_map {α β : Type} (f : α → β) (o : Option (List α)) :
    optList (o.map (List.map f)) = (optList o).map f := by
  cases o <;> rfl

theorem spanCount_exportFix (req : ExportTraceServiceRequest) :
    Traces.SpanCount (exportFix req) = Traces.SpanCount req := by
  rw [spanCount_eq_spec, spanCount_eq_spec]
  unfold Traces.spanCountSpec exportFix
  simp only [optList_map, List.map_map, Function.comp]
  congr 1
  apply List.map_congr_left
  intro rs _
  simp only [fixRs, optList_map, List.map_map, Function.comp]
  congr 1
  apply List.map_congr_left
  intro ils _
  simp [fixIls, optList_map]

theorem allSpans_exportFix (req : ExportTraceServiceRequest) :
    allSpans (exportFix req) = (allSpans req).map fixSpan := by
  unfold allSpans exportFix
  simp only [optList_map, List.flatMap_map, List.map_flatMap]
  apply List.flatMap_congr
  intro rs _
  simp only [Function.comp, fixRs, optList_map, List.flatMap_map, List.map_flatMap]
  apply List.flatMap_congr
  intro ils _
  simp [fixIls, optList_map]

end Receiver

/-!
## Helper lemmas: clone store
-/

namespace Pdata

open Otlp

theorem observe_clone_fst (store : TracesStore) (i : Nat) (h : i < store.length) :
    Traces.observe (Traces.Clone store i).1 i = Traces.observe store i := by
  unfold Traces.observe Traces.Clone
  simp [List.getD, List.getElem?_append, h]

theorem observe_clone_snd (store : TracesStore) (i : Nat) :
    Traces.observe (Traces.Clone store i).1 (Traces.Clone store i).2 =
      Traces.observe store i := by
  unfold Traces.observe Traces.Clone
  simp [List.getD, List.getElem?_concat_length]

theorem observe_mutate_ne (store : TracesStore) (i j : Nat) (h : i ≠ j)
    (f : Otlp.ExportTraceServiceRequest → Otlp.ExportTraceServiceRequest) :
    Traces.observe (Traces.mutate store j f) i = Traces.observe store i := by
  unfold Traces.observe Traces.mutate
  simp [List.getD, List.getElem?_set_ne (Ne.symm h)]

end Pdata

/-!
## Helper lemmas: generated metrics shape
-/

namespace Testbed

theorem genDataPoints_length (now batchIndex : Nat) :
    ∀ (count j items : Nat),
      (genDataPoints now batchIndex j items count).1.length = count := by
  intro count
  induction count with
  | zero => intro j items; rfl
  | succ n ih => intro j items; simp [genDataPoints, ih]

theorem genMetricsLoop_length (now : Nat) :
    ∀ (count : Nat) (i : Nat) (c : Counters),
      (genMetricsLoop now i c count).1.length = count := by
  intro count
  induction count with
  | zero => intro i c; rfl
  | succ n ih => intro i c; simp [genMetricsLoop, ih]

/-- The number of data points a metric's payload carries. -/
def metricDataPointCount (m : Metric) : Nat :=
  match m.data with
  | .noneData => 0
  | .intGauge dps => dps.length

theorem genMetricsLoop_intGauge (now : Nat) :
    ∀ (count : Nat) (i : Nat) (c : Counters) (m : Metric),
      m ∈ (genMetricsLoop now i c count).1 →
      ∃ dps, m.data = .intGauge dps ∧ dps.length = dataPointsPerMetric := by
  intro count
  induction count with
  | zero => intro i c m hm; simp [genMetricsLoop] at hm
  | succ n ih =>
    intro i c m hm
    simp only [genMetricsLoop, List.mem_cons] at hm
    rcases hm with hm | hm
    · subst hm
      exact ⟨_, rfl, genDataPoints_length now _ _ _ _⟩
    · exact ih _ _ _ hm

theorem foldl_pair_count (ms : List Metric) :
    ∀ acc : Nat × Nat,
      ms.foldl (fun a m => (a.1 + 1, a.2 + metricDataPointCount m)) acc =
        (acc.1 + ms.length, acc.2 + (ms.map metricDataPointCount).sum) := by
  induction ms with
  | nil => intro acc; simp
  | cons m ms ih =>
    intro acc
    simp only [List.foldl_cons, List.map_cons, List.sum_cons, ih, List.length_cons]
    refine Prod.ext ?_ ?_ <;> simp <;> omega

theorem metricAndDataPointCount_eq (attrs : List (String × String))
    (ms : List Metric) :
    MetricAndDataPointCount ⟨[⟨attrs, [⟨ms⟩]⟩]⟩ =
      (ms.length, (ms.map metricDataPointCount).sum) := by
  unfold MetricAndDataPointCount
  simp only [List.foldl_cons, List.foldl_nil]
  have h : ∀ (ms : List Metric) (acc : Nat × Nat),
      ms.foldl (fun acc3 m =>
        (acc3.1 + 1,
         acc3.2 + match m.data with
           | .noneData => 0
           | .intGauge dps => dps.length)) acc =
      ms.foldl (fun a m => (a.1 + 1, a.2 + metricDataPointCount m)) acc := by
    intro ms
    induction ms with
    | nil => intro acc; rfl
    | cons m ms ih => intro acc; simp only [List.foldl_cons, ih, metricDataPointCount]
  rw [h, foldl_pair_count]
  simp

theorem sum_map_const_of_mem {α : Type} (f : α → Nat) (k : Nat) :
    ∀ (l : List α), (∀ x ∈ l, f x = k) → (l.map f).sum = l.length * k := by
  intro l
  induction l with
  | nil => intro _; simp
  | cons x xs ih =>
    intro h
    simp only [List.map_cons, List.sum_cons, List.length_cons]
    rw [h x (List.mem_cons_self x xs), ih (fun y hy => h y (List.mem_cons_of_mem x hy))]
    ring

end Testbed

/-!
## Helper lemmas: atomic counter interleavings
-/

namespace Testbed

theorem uint64Mod_eq_two_pow : uint64Mod = 2 ^ 64 := by norm_num [uint64Mod]

theorem uint64Mod_pos : 0 < uint64Mod := by norm_num [uint64Mod]

theorem map_mod_range'_congr :
    ∀ (n a b : Nat), a % uint64Mod = b % uint64Mod →
      (List.range' a n).map (· % uint64Mod) =
        (List.range' b n).map (· % uint64Mod) := by
  intro n
  induction n with
  | zero => intro a b _; simp
  | succ m ih =>
    intro a b h
    simp only [List.range'_succ, List.map_cons]
    rw [h, ih (a + 1) (b + 1) (by rw [← Nat.mod_add_mod, h, Nat.mod_add_mod])]

theorem runAtomicIncs_final (sched : List Nat) :
    ∀ c : Nat, c < uint64Mod →
      (runAtomicIncs c sched).2 = (c + sched.length) % uint64Mod := by
  induction sched with
  | nil => intro c hc; simp [runAtomicIncs, Nat.mod_eq_of_lt hc]
  | cons p ps ih =>
    intro c hc
    simp only [runAtomicIncs, List.length_cons]
    rw [ih _ (Nat.mod_lt _ uint64Mod_pos), Nat.mod_add_mod]
    congr 1
    omega

theorem runAtomicIncs_values (sched : List Nat) :
    ∀ c : Nat,
      (runAtomicIncs c sched).1.map Prod.snd =
        (List.range' (c + 1) sched.length).map (· % uint64Mod) := by
  induction sched with
  | nil => intro c; simp [runAtomicIncs]
  | cons p ps ih =>
    intro c
    simp only [runAtomicIncs, List.length_cons, List.range'_succ, List.map_cons]
    rw [ih]
    exact congrArg _
      (map_mod_range'_congr ps.length _ _ (by rw [Nat.mod_add_mod]))

theorem range'_map_mod_nodup (c n : Nat) (hn : n ≤ uint64Mod) :
    ((List.range' (c + 1) n).map (· % uint64Mod)).Nodup := by
  apply List.Nodup.map_on ?_ (List.nodup_range' _ _)
  intro x hx y hy hxy
  rw [List.mem_range'_1] at hx hy
  simp only [uint64Mod] at hxy hn
  omega

theorem runAtomicIncs_log_length (sched : List Nat) :
    ∀ c : Nat, (runAtomicIncs c sched).1.length = sched.length := by
  induction sched with
  | nil => intro c; rfl
  | cons p ps ih => intro c; simp [runAtomicIncs, ih]

end Testbed

/-!
## Claim theorems
-/

open Otlp

/-- C1: for every well-formed Traces tree, decoding the bytes produced by
encoding it (`TracesFromOtlpProtoBytes` applied to `ToOtlpProtoBytes`)
succeeds and yields a structurally equal tree, including the distinction
between an empty sequence (`some []`) and an absent one (`none`). -/
theorem traces_wire_roundtrip (req : ExportTraceServiceRequest)
    (hwf : Pdata.Traces.wellFormed req) :
    Pdata.TracesFromOtlpProtoBytes (Pdata.Traces.ToOtlpProtoBytes req) =
      (some req, none) := by
  simp [Pdata.TracesFromOtlpProtoBytes, Pdata.Traces.ToOtlpProtoBytes,
    Wire.decReq_enc]

/-- Witness for C1 at a concrete well-formed tree that mixes absent and
empty sequences. -/
theorem traces_wire_roundtrip_witness :
    Pdata.Traces.wellFormed Examples.exampleMixedReq ∧
      Pdata.TracesFromOtlpProtoBytes
          (Pdata.Traces.ToOtlpProtoBytes Examples.exampleMixedReq) =
        (some Examples.exampleMixedReq, none) :=
  ⟨by decide, traces_wire_roundtrip Examples.exampleMixedReq (by decide)⟩

/-- C2: at the ingress boundary the request's spans are exactly the original
spans with their statuses rewritten by the compatibility switch, and for a
status whose current code is UNSET the switch sets the code to ERROR when the
deprecated code is anything other than OK, and leaves it UNSET when the
deprecated code is OK. -/
theorem export_ingress_unset_recovery :
    (∀ req : ExportTraceServiceRequest,
      Receiver.allSpans (Receiver.exportFix req) =
        (Receiver.allSpans req).map Receiver.fixSpan) ∧
    ∀ s : Status, s.code = statusCodeUnset →
      ((s.deprecatedCode ≠ deprecatedStatusCodeOk →
          (Receiver.fixStatus s).code = statusCodeError) ∧
       (s.deprecatedCode = deprecatedStatusCodeOk →
          (Receiver.fixStatus s).code = statusCodeUnset)) := by
  refine ⟨Receiver.allSpans_exportFix, ?_⟩
  intro s hs
  constructor
  · intro hdep
    simp [Receiver.fixStatus, hs, hdep, statusCodeUnset]
  · intro hdep
    simp [Receiver.fixStatus, hs, hdep, statusCodeUnset, deprecatedStatusCodeOk]

/-- Witness for C2: a status with deprecated code UNKNOWN_ERROR is recovered
to ERROR; one with deprecated code OK stays UNSET. -/
theorem export_ingress_unset_recovery_witness :
    (Receiver.fixStatus ⟨statusCodeUnset, deprecatedStatusCodeUnknownError, []⟩).code
        = statusCodeError ∧
    (Receiver.fixStatus ⟨statusCodeUnset, deprecatedStatusCodeOk, []⟩).code
        = statusCodeUnset :=
  ⟨(export_ingress_unset_recovery.2 ⟨statusCodeUnset, deprecatedStatusCodeUnknownError, []⟩
      rfl).1 (by decide),
   (export_ingress_unset_recovery.2 ⟨statusCodeUnset, deprecatedStatusCodeOk, []⟩
      rfl).2 rfl⟩

/-- C3: whenever the current code is explicitly set the deprecated code is
overwritten consistently: after `SetCode v` the current code is `v`, with
deprecated code OK for Unset/Ok and UNKNOWN_ERROR for Error; and at ingress
the rewrite gives every status with current code OK the deprecated code OK
and every status with current code ERROR the deprecated code UNKNOWN_ERROR,
applied to every span of the request. -/
theorem status_code_compatibility_overwrite :
    (∀ (ms : Status) (v : Nat),
      (Pdata.SpanStatus.SetCode ms v).code = v ∧
      (v = statusCodeUnset ∨ v = statusCodeOk →
        (Pdata.SpanStatus.SetCode ms v).deprecatedCode = deprecatedStatusCodeOk) ∧
      (v = statusCodeError →
        (Pdata.SpanStatus.SetCode ms v).deprecatedCode =
          deprecatedStatusCodeUnknownError)) ∧
    (∀ s : Status,
      (s.code = statusCodeOk →
        (Receiver.fixStatus s).deprecatedCode = deprecatedStatusCodeOk) ∧
      (s.code = statusCodeError →
        (Receiver.fixStatus s).deprecatedCode =
          deprecatedStatusCodeUnknownError)) ∧
    ∀ req : ExportTraceServiceRequest,
      Receiver.allSpans (Receiver.exportFix req) =
        (Receiver.allSpans req).map
          (fun sp => { sp with status := Receiver.fixStatus sp.status }) := by
  refine ⟨?_, ?_, Receiver.allSpans_exportFix⟩
  · intro ms v
    refine ⟨?_, ?_, ?_⟩
    · unfold Pdata.SpanStatus.SetCode
      split <;> try split
      all_goals rfl
    · intro hv
      simp [Pdata.SpanStatus.SetCode, hv]
    · intro hv
      subst hv
      simp [Pdata.SpanStatus.SetCode, statusCodeError, statusCodeUnset, statusCodeOk]
  · intro s
    constructor
    · intro hs
      simp [Receiver.fixStatus, hs, statusCodeOk, statusCodeUnset]
    · intro hs
      simp [Receiver.fixStatus, hs, statusCodeError, statusCodeUnset, statusCodeOk]

/-- Witness for C3 at concrete statuses and codes. -/
theorem status_code_compatibility_overwrite_witness :
    ((Pdata.SpanStatus.SetCode ⟨0, 0, []⟩ statusCodeOk).code = statusCodeOk ∧
     (Pdata.SpanStatus.SetCode ⟨0, 0, []⟩ statusCodeOk).deprecatedCode =
        deprecatedStatusCodeOk ∧
     (Pdata.SpanStatus.SetCode ⟨0, 0, []⟩ statusCodeError).deprecatedCode =
        deprecatedStatusCodeUnknownError) ∧
    ((Receiver.fixStatus ⟨statusCodeOk, 2, []⟩).deprecatedCode =
        deprecatedStatusCodeOk ∧
     (Receiver.fixStatus ⟨statusCodeError, 0, []⟩).deprecatedCode =
        deprecatedStatusCodeUnknownError) :=
  ⟨⟨(status_code_compatibility_overwrite.1 ⟨0, 0, []⟩ statusCodeOk).1,
    (status_code_compatibility_overwrite.1 ⟨0, 0, []⟩ statusCodeOk).2.1 (Or.inr rfl),
    (status_code_compatibility_overwrite.1 ⟨0, 0, []⟩ statusCodeError).2.2 rfl⟩,
   ⟨(status_code_compatibility_overwrite.2.1 ⟨statusCodeOk, 2, []⟩).1 rfl,
    (status_code_compatibility_overwrite.2.1 ⟨statusCodeError, 0, []⟩).2 rfl⟩⟩

/-- C4 counterexample: the claim that `SetCode` leaves the deprecated code
field unchanged is false — `SetCode` with `Error` on a status whose
deprecated code is OK overwrites the deprecated code to UNKNOWN_ERROR. -/
theorem setCode_deprecated_unchanged_counterexample :
    (Pdata.SpanStatus.SetCode ⟨statusCodeUnset, deprecatedStatusCodeOk, []⟩
        statusCodeError).deprecatedCode ≠
      (⟨statusCodeUnset, deprecatedStatusCodeOk, []⟩ : Status).deprecatedCode := by
  decide

/-- C4 amended: mutating a status through `SetCode v` after ingress changes
only the current-code and deprecated-code fields: the message is unchanged,
the current code becomes `v`, and the deprecated code is overwritten by the
sender mapping (OK for Unset/Ok, UNKNOWN_ERROR for Error, unchanged for any
other value). -/
theorem setCode_frame_amended (ms : Status) (v : Nat) :
    (Pdata.SpanStatus.SetCode ms v).message = ms.message ∧
    (Pdata.SpanStatus.SetCode ms v).code = v ∧
    (v = statusCodeUnset ∨ v = statusCodeOk →
      (Pdata.SpanStatus.SetCode ms v).deprecatedCode = deprecatedStatusCodeOk) ∧
    (v = statusCodeError →
      (Pdata.SpanStatus.SetCode ms v).deprecatedCode =
        deprecatedStatusCodeUnknownError) ∧
    (¬(v = statusCodeUnset ∨ v = statusCodeOk) → v ≠ statusCodeError →
      (Pdata.SpanStatus.SetCode ms v).deprecatedCode = ms.deprecatedCode) := by
  unfold Pdata.SpanStatus.SetCode
  refine ⟨?_, ?_, ?_, ?_, ?_⟩
  · split <;> try split
    all_goals rfl
  · split <;> try split
    all_goals rfl
  · intro hv; simp [hv]
  · intro hv
    subst hv
    simp [statusCodeError, statusCodeUnset, statusCodeOk]
  · intro hv1 hv2
    simp [hv1, hv2]

/-- Witness for C4 amended, at a concrete status and each kind of code. -/
theorem setCode_frame_amended_witness :
    (Pdata.SpanStatus.SetCode ⟨2, 2, [7]⟩ statusCodeOk).message = [7] ∧
    (Pdata.SpanStatus.SetCode ⟨2, 2, [7]⟩ statusCodeOk).deprecatedCode =
      deprecatedStatusCodeOk ∧
    (Pdata.SpanStatus.SetCode ⟨2, 0, [7]⟩ statusCodeError).deprecatedCode =
      deprecatedStatusCodeUnknownError ∧
    (Pdata.SpanStatus.SetCode ⟨2, 2, [7]⟩ 5).deprecatedCode = 2 :=
  ⟨(setCode_frame_amended ⟨2, 2, [7]⟩ statusCodeOk).1,
   (setCode_frame_amended ⟨2, 2, [7]⟩ statusCodeOk).2.2.1 (Or.inr rfl),
   (setCode_frame_amended ⟨2, 0, [7]⟩ statusCodeError).2.2.2.1 rfl,
   (setCode_frame_amended ⟨2, 2, [7]⟩ 5).2.2.2.2 (by decide) (by decide)⟩

/-- C5: whenever decoding fails, `TracesFromOtlpProtoBytes` returns the
invalid zero-value Traces together with the non-nil decoding error, and a
decoding failure is never converted into a successfully returned tree: a nil
error implies the decoder succeeded on the input and the returned tree is the
decoded one. -/
theorem traces_from_bytes_failure_all_or_nothing (data : List Nat) :
    (∀ e, Wire.decReq data = .error e →
      Pdata.TracesFromOtlpProtoBytes data = (none, some e)) ∧
    ((Pdata.TracesFromOtlpProtoBytes data).2 = none →
      ∃ req, Wire.decReq data = .ok req ∧
        Pdata.TracesFromOtlpProtoBytes data = (some req, none)) := by
  cases h : Wire.decReq data with
  | error e =>
    refine ⟨?_, ?_⟩
    · intro e' he'
      injection he' with hh
      subst hh
      simp [Pdata.TracesFromOtlpProtoBytes, h]
    · intro hnone
      simp [Pdata.TracesFromOtlpProtoBytes, h] at hnone
  | ok req =>
    refine ⟨?_, ?_⟩
    · intro e' he'
      exact Except.noConfusion he'
    · intro _
      exact ⟨req, rfl, by simp [Pdata.TracesFromOtlpProtoBytes, h]⟩

/-- Witness for C5: the empty byte string is malformed (truncated) and
decodes to the invalid zero-value Traces plus an error. -/
theorem traces_from_bytes_failure_witness :
    Pdata.TracesFromOtlpProtoBytes [] = (none, some "truncated input") :=
  (traces_from_bytes_failure_all_or_nothing []).1 "truncated input" rfl

/-- C6: for every Traces tree, `SpanCount` equals the sum over every
resource-spans entry and every instrumentation-library group of the length of
its spans sequence, and the tree with 2 resource-spans entries of 1 group of
3 spans each counts 6 spans. -/
theorem spanCount_traversal_and_scenario :
    (∀ td : ExportTraceServiceRequest,
      Pdata.Traces.SpanCount td = Pdata.Traces.spanCountSpec td) ∧
    Pdata.Traces.SpanCount Examples.exampleTraces2x1x3 = 6 :=
  ⟨Pdata.spanCount_eq_spec, by decide⟩

/-- C7: cloning a traces root yields a fresh, non-aliasing root holding a
deep copy of the original value, and mutating anything through the clone's
handle never changes what is observable through the original handle. -/
theorem clone_independence (store : Pdata.TracesStore) (i : Nat)
    (f : ExportTraceServiceRequest → ExportTraceServiceRequest)
    (h : i < store.length) :
    Pdata.Traces.observe
        (Pdata.Traces.mutate (Pdata.Traces.Clone store i).1
          (Pdata.Traces.Clone store i).2 f) i
      = Pdata.Traces.observe store i ∧
    Pdata.Traces.observe (Pdata.Traces.Clone store i).1
        (Pdata.Traces.Clone store i).2
      = Pdata.Traces.observe store i ∧
    (Pdata.Traces.Clone store i).2 ≠ i := by
  have hne : i ≠ (Pdata.Traces.Clone store i).2 := Nat.ne_of_lt h
  refine ⟨?_, Pdata.observe_clone_snd store i, fun hh => (Nat.ne_of_lt h) hh.symm⟩
  rw [Pdata.observe_mutate_ne _ _ _ hne, Pdata.observe_clone_fst store i h]

/-- Witness for C7 at a one-root store and a concrete mutation. -/
theorem clone_independence_witness :
    0 < ([Examples.exampleTraces2x1x3] : Pdata.TracesStore).length ∧
    (Pdata.Traces.observe
        (Pdata.Traces.mutate
          (Pdata.Traces.Clone [Examples.exampleTraces2x1x3] 0).1
          (Pdata.Traces.Clone [Examples.exampleTraces2x1x3] 0).2
          (fun _ => ⟨none⟩)) 0
      = Pdata.Traces.observe [Examples.exampleTraces2x1x3] 0 ∧
    Pdata.Traces.observe (Pdata.Traces.Clone [Examples.exampleTraces2x1x3] 0).1
        (Pdata.Traces.Clone [Examples.exampleTraces2x1x3] 0).2
      = Pdata.Traces.observe [Examples.exampleTraces2x1x3] 0 ∧
    (Pdata.Traces.Clone [Examples.exampleTraces2x1x3] 0).2 ≠ 0) :=
  ⟨by decide,
   clone_independence [Examples.exampleTraces2x1x3] 0 (fun _ => ⟨none⟩) (by decide)⟩

/-- C8: `GenerateMetrics` returns a tree with exactly one resource-metrics
entry holding one instrumentation-library group of exactly `ItemsPerBatch`
metrics, each an int-gauge of exactly 7 data points; for `ItemsPerBatch = 1`
the (metric, data-point) pair count is (1, 7). -/
theorem generateMetrics_shape (dp : Testbed.LoadOptions) (c : Testbed.Counters)
    (now : Nat) :
    (Testbed.GenerateMetrics dp c now).1.resourceMetrics.length = 1 ∧
    (∀ rm ∈ (Testbed.GenerateMetrics dp c now).1.resourceMetrics,
      rm.instrumentationLibraryMetrics.length = 1 ∧
      ∀ ilm ∈ rm.instrumentationLibraryMetrics,
        ilm.metrics.length = dp.itemsPerBatch ∧
        ∀ m ∈ ilm.metrics, ∃ dps, m.data = .intGauge dps ∧
          dps.length = Testbed.dataPointsPerMetric) ∧
    (dp.itemsPerBatch = 1 →
      Testbed.MetricAndDataPointCount (Testbed.GenerateMetrics dp c now).1 =
        (1, Testbed.dataPointsPerMetric)) := by
  refine ⟨rfl, ?_, ?_⟩
  · intro rm hrm
    simp only [Testbed.GenerateMetrics, List.mem_singleton] at hrm
    subst hrm
    refine ⟨rfl, ?_⟩
    intro ilm hilm
    simp only [List.mem_singleton] at hilm
    subst hilm
    exact ⟨Testbed.genMetricsLoop_length now dp.itemsPerBatch 0 c,
      fun m hm => Testbed.genMetricsLoop_intGauge now dp.itemsPerBatch 0 c m hm⟩
  · intro h1
    show Testbed.MetricAndDataPointCount
        ⟨[⟨dp.attributes, [⟨(Testbed.genMetricsLoop now 0 c dp.itemsPerBatch).1⟩]⟩]⟩ =
      (1, Testbed.dataPointsPerMetric)
    rw [Testbed.metricAndDataPointCount_eq]
    have hlen : (Testbed.genMetricsLoop now 0 c dp.itemsPerBatch).1.length = 1 := by
      rw [Testbed.genMetricsLoop_length, h1]
    have hsum :
        ((Testbed.genMetricsLoop now 0 c dp.itemsPerBatch).1.map
          Testbed.metricDataPointCount).sum =
        (Testbed.genMetricsLoop now 0 c dp.itemsPerBatch).1.length *
          Testbed.dataPointsPerMetric := by
      apply Testbed.sum_map_const_of_mem
      intro m hm
      obtain ⟨dps, hdata, hdlen⟩ :=
        Testbed.genMetricsLoop_intGauge now dp.itemsPerBatch 0 c m hm
      simp [Testbed.metricDataPointCount, hdata, hdlen]
    rw [hlen] at hsum ⊢
    rw [hsum]
    simp

/-- Witness for C8 with a one-item batch. -/
theorem generateMetrics_shape_witness :
    Testbed.MetricAndDataPointCount
        (Testbed.GenerateMetrics ⟨1, []⟩ ⟨0, 0⟩ 0).1 =
      (1, Testbed.dataPointsPerMetric) :=
  (generateMetrics_shape ⟨1, []⟩ ⟨0, 0⟩ 0).2.2 rfl

/-- C9: a trace export request whose span count is zero is acknowledged as
success without downstream consumption: `Export` returns a non-nil empty
response, a nil error, and never invokes the next consumer. -/
theorem export_empty_batch_ack
    (consume : ExportTraceServiceRequest → Option String)
    (req : ExportTraceServiceRequest)
    (h : Pdata.Traces.SpanCount req = 0) :
    Receiver.Export consume req = ((some ⟨⟩, none), false) := by
  have h2 : Pdata.Traces.SpanCount (Receiver.exportFix req) = 0 := by
    rw [Receiver.spanCount_exportFix]; exact h
  simp [Receiver.Export, Receiver.sendToNextConsumer, h2]

/-- Witness for C9: an empty request with a consumer that would fail. -/
theorem export_empty_batch_ack_witness :
    Pdata.Traces.SpanCount (⟨none⟩ : ExportTraceServiceRequest) = 0 ∧
    Receiver.Export (fun _ => some "downstream failure")
        (⟨none⟩ : ExportTraceServiceRequest) = ((some ⟨⟩, none), false) :=
  ⟨rfl, export_empty_batch_ack (fun _ => some "downstream failure") ⟨none⟩ rfl⟩

/-- C10 counterexample: the claim that no two increments of the shared
counter ever observe the same value fails for an interleaving of more than
`2 ^ 64` increments — the `atomic.Uint64` counter wraps, so starting from 0
an interleaving of `2 ^ 64 + 1` increments observes the value 1 twice. -/
theorem atomic_counters_distinct_counterexample :
    ¬ ((Testbed.runAtomicIncs 0
          (List.replicate (Testbed.uint64Mod + 1) 0)).1.map Prod.snd).Nodup := by
  intro h
  rw [Testbed.runAtomicIncs_values, List.length_replicate] at h
  have h1 : (1 : Nat) ∈ List.range' (0 + 1) (Testbed.uint64Mod + 1) := by
    rw [List.mem_range'_1]
    omega
  have h2 : Testbed.uint64Mod + 1 ∈ List.range' (0 + 1) (Testbed.uint64Mod + 1) := by
    rw [List.mem_range'_1]
    omega
  have heq : (1 : Nat) % Testbed.uint64Mod = (Testbed.uint64Mod + 1) % Testbed.uint64Mod := by
    rw [Nat.add_mod_left]
  have := List.inj_on_of_nodup_map h h1 h2 heq
  simp only [Testbed.uint64Mod] at this
  omega

/-- C10 amended: the shared sequence counters are advanced only by atomic
increments of a wrapping uint64, so for any interleaving of concurrent
producers no increment is lost — the final counter equals the initial one
plus the number of increments, modulo `2 ^ 64` — and, as long as the
interleaving performs at most `2 ^ 64` increments, no two increments observe
the same counter value, so every batch and data item receives a distinct
sequence number. -/
theorem atomic_counters_wrapped_amended (c : Nat) (sched : List Nat)
    (hc : c < Testbed.uint64Mod) (hlen : sched.length ≤ Testbed.uint64Mod) :
    (Testbed.runAtomicIncs c sched).2 = (c + sched.length) % Testbed.uint64Mod ∧
    ((Testbed.runAtomicIncs c sched).1.map Prod.snd).Nodup ∧
    (Testbed.runAtomicIncs c sched).1.length = sched.length := by
  refine ⟨Testbed.runAtomicIncs_final sched c hc, ?_,
    Testbed.runAtomicIncs_log_length sched c⟩
  rw [Testbed.runAtomicIncs_values]
  exact Testbed.range'_map_mod_nodup c sched.length hlen

/-- Witness for C10 amended at a concrete initial counter and interleaving
of three producers. -/
theorem atomic_counters_wrapped_amended_witness :
    (5 < Testbed.uint64Mod ∧ ([1, 2, 3] : List Nat).length ≤ Testbed.uint64Mod) ∧
    ((Testbed.runAtomicIncs 5 [1, 2, 3]).2 =
        (5 + ([1, 2, 3] : List Nat).length) % Testbed.uint64Mod ∧
     ((Testbed.runAtomicIncs 5 [1, 2, 3]).1.map Prod.snd).Nodup ∧
     (Testbed.runAtomicIncs 5 [1, 2, 3]).1.length = ([1, 2, 3] : List Nat).length) :=
  ⟨⟨by decide, by decide⟩,
   atomic_counters_wrapped_amended 5 [1, 2, 3] (by decide) (by decide)⟩
